import Mathlib

/-
Shallow embedding of jacobian/uri (src/uri.py), a Python 2 URI-template
expander, together with proofs about the claims of its specification.

Modelling conventions:
* Python 2 `str` values are modelled as Lean `String` (each char one byte;
  every reachable character is ASCII).
* A caller value is either a scalar string or a list of strings
  (`hasattr(v, "__iter__")` distinguishes them in the source: Python 2
  strings have no `__iter__`, lists do).
* Python dicts are modelled as association lists recording the entries in
  first-insertion order, with assignment overwriting the value of an
  existing key in place.  Where the dict's iteration order is observable
  (`variables.items()` in `join` and the first-variable operators) it is
  modelled by `cpythonItems`, the hash-table order of a 64-bit CPython 2
  build; `opt`/`neg` scan the list directly because their result does not
  depend on the iteration order.
* Python exceptions are modelled by the `PyError` sum: the source raises
  `TemplateSyntaxError` explicitly, and `ValueError` (tuple unpacking of
  `str.split` results), `TypeError` (`str + list` concatenation, and a
  non-string returned to `re.sub`), `AssertionError` (`assert`) and
  `IndexError` (`[0]` on an empty item list) can arise from the runtime.
* `re.sub` with pattern `{([^}]+)}` (at least one non-close-brace char
  between braces, first close brace ends the match) is modelled by
  splitting the template on the close brace and scanning each segment for
  its first open brace; a callback returning `None` contributes the empty
  string to the output (CPython skips `None` items of the result list).
-/

namespace Uri

/-- Errors a call into the library can raise.  The source only ever raises
`TemplateSyntaxError` explicitly; the other constructors model exceptions
raised by the Python runtime from inside the library. -/
inductive PyError where
  | templateSyntaxError (msg : String)
  | valueError (msg : String)
  | typeError (msg : String)
  | assertionError
  | indexError
  deriving DecidableEq, Repr

/-- A caller-supplied value: a scalar text or an ordered sequence of texts. -/
inductive Value where
  | scalar (s : String)
  | seq (l : List String)
  deriving DecidableEq, Repr

/-- The caller's value mapping (a Python dict), insertion ordered. -/
abbrev Values := List (String × Value)

/-- The ordered variable table of one expansion: name paired with the
optional default (`None` when the variable was declared without one). -/
abbrev VarDict := List (String × Option String)

/-- The open-brace character (written via its code point). -/
def lbrace : Char := Char.ofNat 123

/-- The close-brace character (written via its code point). -/
def rbrace : Char := Char.ofNat 125

/-- A single-quote character as a one-character string. -/
def sq : String := String.mk [Char.ofNat 39]

/-- Python `repr` of a string, as used by `"%r" % s` in the error messages.
Exact for strings free of quotes, backslashes and control characters, which
covers every string the source ever formats this way in our theorems. -/
def pyRepr (s : String) : String := sq ++ s ++ sq

/-- Python `dict[k]` / `dict.get(k)`: the value of the first (unique) entry
with the given key. -/
def pyGet (values : List (String × α)) (k : String) : Option α :=
  match values with
  | [] => none
  | (k₀, v) :: rest => if k₀ = k then some v else pyGet rest k

/-- Python dict assignment `d[k] = v`: overwrite the value in place when
the key is present, append otherwise.  The list records the entries in
first-insertion order (the order in which the hash table is built: an
update of an existing key does not move it); the observable iteration
order of the resulting dict is modelled by `cpythonItems` below. -/
def dictInsert (d : VarDict) (k : String) (v : Option String) : VarDict :=
  match d with
  | [] => [(k, v)]
  | (k₀, v₀) :: rest => if k₀ = k then (k, v) :: rest else (k₀, v₀) :: dictInsert rest k v

/-- Bitwise xor of two naturals below `2 ^ 64`, binary digit by digit,
written structurally so that it evaluates in the kernel. -/
def natXorAux : Nat → Nat → Nat → Nat
  | 0, _, _ => 0
  | fuel + 1, a, b =>
    (if a % 2 = b % 2 then 0 else 1) + 2 * natXorAux fuel (a / 2) (b / 2)

/-- Xor for 64-bit quantities. -/
def natXor (a b : Nat) : Nat := natXorAux 64 a b

/-- Two to the sixty-fourth, the modulus of C long and size_t arithmetic
in the 64-bit CPython 2 builds modelled here. -/
def size64 : Nat := 18446744073709551616

/-- Modelled from the runtime: CPython 2.7's string hash
(Objects/stringobject.c, 64-bit build): start from the first byte shifted
left seven, fold `x = (1000003*x) ^ byte` over every byte, xor the length,
and replace a result of `-1` by `-2` (here in unsigned form); the empty
string hashes to `0`.  On the keys `a`, `b`, `c` of the module's own
doctest this yields slots `0`, `3`, `2` of an eight-slot table, giving the
iteration order `a, c, b` that the doctest `c=3&b=2` records
(src/uri.py line 62). -/
def pyStringHash (s : String) : Nat :=
  match s.toList with
  | [] => 0
  | c :: _ =>
    let x := s.toList.foldl (fun x c => natXor ((1000003 * x) % size64) c.toNat)
      ((c.toNat * 128) % size64)
    let y := natXor x (s.length % size64)
    if y = size64 - 1 then size64 - 2 else y

/-- Modelled from the runtime: CPython 2.7's open-addressing probe
(Objects/dictobject.c, lookdict): start at the hash masked by the table
size, then step `i = 5*i + perturb + 1` with `perturb` (initially the
hash) shifted right five bits per step, stopping at the first free slot.
Our key sequences are distinct, so the key-comparison path of the C code
is never taken; the fuel is generous enough to find a free slot whenever
one exists. -/
def probeSlot (table : List (Option String)) (mask : Nat) : Nat → Nat → Nat → Nat
  | 0, i, _ => i % (mask + 1)
  | fuel + 1, i, perturb =>
    if (table.getD (i % (mask + 1)) none).isNone then i % (mask + 1)
    else probeSlot table mask fuel ((5 * i + perturb + 1) % size64) (perturb / 32)

/-- Insert one key into the slot table (no resize check). -/
def insertKeyRaw (table : List (Option String)) (k : String) : List (Option String) :=
  table.set
    (probeSlot table (table.length - 1) (4 * table.length + 64)
      (pyStringHash k % (table.length - 1 + 1)) (pyStringHash k))
    (some k)

/-- The table size CPython 2 grows to: the smallest power of two greater
than `minused`, starting from the minimum table size eight. -/
def growSize (minused : Nat) : Nat :=
  (List.range 60).foldl (fun sz _ => if sz ≤ minused then sz * 2 else sz) 8

/-- Resize as in CPython 2's dictresize: re-insert the entries, in table
order, into a fresh table sized for four times the used count. -/
def dictResize (table : List (Option String)) (used : Nat) : List (Option String) :=
  (table.filterMap id).foldl insertKeyRaw (List.replicate (growSize (used * 4)) none)

/-- One `d[k] = v` step of the table build: insert the new key, then
resize when the fill reaches two thirds of the table
(`fill*3 >= size*2`, with fill equal to used since nothing is deleted). -/
def dictInsertKey (st : List (Option String) × Nat) (k : String) :
    List (Option String) × Nat :=
  let table := insertKeyRaw st.1 k
  let used := st.2 + 1
  if 3 * used ≥ 2 * table.length then (dictResize table used, used) else (table, used)

/-- Build the hash table of a dict whose distinct keys were first assigned
in the given order (an update of an existing key does not move it, so the
first-insertion order of the distinct keys determines the table). -/
def buildTable (keys : List String) : List (Option String) :=
  (keys.foldl dictInsertKey (List.replicate 8 none, 0)).1

/-- Iteration order of a CPython 2 dict holding the given keys: the
occupied slots in ascending slot order. -/
def cpythonKeyOrder (keys : List String) : List String :=
  (buildTable keys).filterMap id

/-- `variables.items()` of a parsed variable dict: its entries in the
dict's CPython 2 iteration order. -/
def cpythonItems (d : VarDict) : VarDict :=
  (cpythonKeyOrder (d.map (fun kv => kv.1))).filterMap
    (fun k => (pyGet d k).map (fun v => (k, v)))

/-- Python 2 `str.split(sep)` for a one-character separator: split on every
occurrence, keeping empty pieces; splitting the empty string gives one
empty piece. -/
def pySplit (sep : Char) : List Char → List (List Char)
  | [] => [[]]
  | c :: rest =>
    match pySplit sep rest with
    | [] => [[c]]
    | h :: t => if c = sep then [] :: h :: t else (c :: h) :: t

/-- String-level wrapper of `pySplit`. -/
def splitOnChar (sep : Char) (s : String) : List String :=
  (pySplit sep s.toList).map String.mk

/-- Characters of Python 2 `urllib.always_safe`: ASCII letters, digits and
`_`, `.`, `-`.  Note the tilde is not in this set. -/
def isAlwaysSafe (c : Char) : Bool :=
  c.isAlpha || c.isDigit || c = '_' || c = '.' || c = '-'

/-- One uppercase hexadecimal digit. -/
def hexUpper (n : Nat) : Char :=
  if n < 10 then Char.ofNat (48 + n) else Char.ofNat (55 + n)

/-- Python `"%02X" % n`: uppercase hexadecimal, left-padded with `0` to at
least two digits. -/
def pyHex2 (n : Nat) : List Char :=
  let ds := (Nat.toDigits 16 n).map Char.toUpper
  if ds.length < 2 then List.replicate (2 - ds.length) '0' ++ ds else ds

/-- Python 2 `urllib.quote(c)` for one character, with the default
`safe='/'`: safe characters pass through, everything else becomes a
percent escape. -/
def quoteChar (c : Char) : List Char :=
  if isAlwaysSafe c || c = '/' then [c] else '%' :: pyHex2 c.toNat

/-- Python 2 `urllib.quote(s)` with the default `safe='/'`. -/
def pyQuote (s : String) : String :=
  String.mk ((s.toList.map quoteChar).flatten)

/-- Percent-encode one value: scalars are quoted, sequences element-wise
(`src/uri.py`, `percent_encode`, the per-entry branch on `__iter__`). -/
def encodeValue : Value → Value
  | .scalar s => .scalar (pyQuote s)
  | .seq l => .seq (l.map pyQuote)

/-- `percent_encode` (src/uri.py lines 180-196): encode every entry of the
caller's mapping, keys unchanged. -/
def percent_encode (values : Values) : Values :=
  values.map (fun kv => (kv.1, encodeValue kv.2))

/-- A Python 2 `\w` character (no `re.UNICODE`): letter, digit or
underscore. -/
def isPyWordChar (c : Char) : Bool :=
  c.isAlpha || c.isDigit || c = '_'

/-- The `_varname_pattern` regex `^[A-Za-z0-9]\w*$` (src/uri.py line 41):
first character alphanumeric, the rest word characters.  Python's `$` also
matches just before one trailing newline, modelled by the second disjunct. -/
def varnameMatches (s : String) : Bool :=
  match s.toList with
  | [] => false
  | c :: cs =>
    (c.isAlpha || c.isDigit) &&
      (cs.all isPyWordChar ||
        (cs.getLast? = some (Char.ofNat 10) && cs.dropLast.all isPyWordChar))

/-- The per-token loop of `parse_expansion` (src/uri.py lines 162-173):
split each token on `=` (a token with two or more `=` makes the tuple
unpacking raise `ValueError`), reject an empty explicit default, validate
the name against `_varname_pattern`, and insert into the ordered dict. -/
def parseVars (tokens : List String) (acc : VarDict) : Except PyError VarDict :=
  match tokens with
  | [] => .ok acc
  | tok :: rest =>
    match
      (if tok.toList.contains '=' then
        match splitOnChar '=' tok with
        | [n, v] =>
          if v = "" then .error (.templateSyntaxError ("Invalid variable: " ++ pyRepr tok))
          else .ok (n, some v)
        | _ => .error (.valueError "unpacking mismatch")
      else .ok (tok, none) : Except PyError (String × Option String)) with
    | .error e => .error e
    | .ok (varname, vardefault) =>
      if varnameMatches varname then parseVars rest (dictInsert acc varname vardefault)
      else .error (.templateSyntaxError ("Invalid variable: " ++ pyRepr varname))

/-- `parse_expansion` (src/uri.py lines 140-175): when the body contains a
pipe, split it on every pipe and unpack into exactly three parts (any other
arity raises `ValueError`), strip the first character of the operator
token; otherwise the whole body is the variable list with no operator. -/
def parse_expansion (expansion : String) :
    Except PyError (Option String × Option String × VarDict) :=
  match
    (if expansion.toList.contains '|' then
      match splitOnChar '|' expansion with
      | [o, a, v] => .ok (some (String.mk (o.toList.drop 1)), some a, v)
      | _ => .error (.valueError "unpacking mismatch")
    else .ok (none, none, expansion) :
      Except PyError (Option String × Option String × String)) with
  | .error e => .error e
  | .ok (op, arg, varsToken) =>
    match parseVars (splitOnChar ',' varsToken) [] with
    | .error e => .error e
    | .ok vars => .ok (op, arg, vars)

/-- `values.get(name, default)` as used by the plain substitution and the
`join`, `prefix` and `append` operators: the encoded value when present,
else the declared default as a scalar, else absent. -/
def lookupDefault (values : Values) (k : String) (dflt : Option String) : Option Value :=
  match pyGet values k with
  | some v => some v
  | none => dflt.map Value.scalar

/-- Python `len` of a value: character count of a scalar, element count of
a sequence. -/
def pyLen : Value → Nat
  | .scalar s => s.length
  | .seq l => l.length

/-- Python `"%s" % v`: a scalar prints itself; a list prints as its repr.
Element quoting is exact for quote-free element strings, which is all the
percent-encoded values the source can feed it. -/
def pyStr : Value → String
  | .scalar s => s
  | .seq l =>
    "[" ++ String.mk (((l.map (fun s => pyRepr s)).intersperse ", ").map String.toList).flatten ++ "]"

/-- Join a list of strings with a separator, Python `sep.join(list)`. -/
def joinWith (sep : String) : List String → String
  | [] => ""
  | [x] => x
  | x :: y :: rest => x ++ sep ++ joinWith sep (y :: rest)

/-- Python `sep.join(v)` where `v` may be a string (joining its characters)
or a list of strings. -/
def pyJoin (sep : String) : Value → String
  | .scalar s => joinWith sep (s.toList.map (fun c => String.mk [c]))
  | .seq l => joinWith sep l

/-- `operator_opt` (src/uri.py lines 91-98): scan `variables.keys()`; a
variable qualifies when `values.get(k, None)` is not `None` and is not an
empty sequence (declared defaults are never consulted); the first
qualifying variable returns `arg`, otherwise the result is empty.  The
source iterates the dict in hash order, but the loop returns the constant
`arg` at the first qualifying variable and empty text when none qualifies,
so the result does not depend on the iteration order and the list is
scanned directly. -/
def operator_opt (vars : VarDict) (arg : String) (values : Values) : String :=
  match vars with
  | [] => ""
  | (k, _) :: rest =>
    match pyGet values k with
    | none => operator_opt rest arg values
    | some (Value.seq l) => if l.isEmpty then operator_opt rest arg values else arg
    | some (Value.scalar _) => arg

/-- `operator_neg` (src/uri.py lines 100-104): empty when `operator_opt` on
the same inputs is truthy (a non-empty string), else `arg`. -/
def operator_neg (vars : VarDict) (arg : String) (values : Values) : String :=
  if operator_opt vars arg values ≠ "" then "" else arg

/-- `operator_listjoin` (src/uri.py lines 106-108): join the `values`
entry of `variables.keys()[0]` — the first key in the dict's iteration
order — with `arg`; an absent variable is an empty list (the declared
default is never consulted).  An empty variable dict would raise
`IndexError`, but the parser never produces one. -/
def operator_listjoin (vars : VarDict) (arg : String) (values : Values) :
    Except PyError String :=
  match cpythonItems vars with
  | [] => .error .indexError
  | (k, _) :: _ => .ok (pyJoin arg ((pyGet values k).getD (Value.seq [])))

/-- `operator_join` (src/uri.py lines 110-115): iterate
`variables.items()` — the dict's iteration order, modelled by
`cpythonItems` — format `name=value` for every variable whose
`values.get(k, default)` is not `None`, and join the formatted pairs with
`arg`. -/
def operator_join (vars : VarDict) (arg : String) (values : Values) : String :=
  joinWith arg
    ((cpythonItems vars).filterMap (fun kd =>
      (lookupDefault values kd.1 kd.2).map (fun v => kd.1 ++ "=" ++ pyStr v)))

/-- The operator_prefix function (src/uri.py lines 117-123): take
`variables.items()[0]` — the first entry in the dict's iteration order —
and its `values.get(k, default)`; when present and of positive length,
return `arg + v` (Python raises `TypeError` when `v` is a list). -/
def operator_prefix (vars : VarDict) (arg : String) (values : Values) :
    Except PyError String :=
  match cpythonItems vars with
  | [] => .error .indexError
  | (k, dflt) :: _ =>
    match lookupDefault values k dflt with
    | none => .ok ""
    | some v =>
      if pyLen v > 0 then
        match v with
        | Value.scalar s => .ok (arg ++ s)
        | Value.seq _ => .error (.typeError "cannot concatenate str and list objects")
      else .ok ""

/-- `operator_append` (src/uri.py lines 125-131): as the operator_prefix function but
returning `v + arg`. -/
def operator_append (vars : VarDict) (arg : String) (values : Values) :
    Except PyError String :=
  match cpythonItems vars with
  | [] => .error .indexError
  | (k, dflt) :: _ =>
    match lookupDefault values k dflt with
    | none => .ok ""
    | some v =>
      if pyLen v > 0 then
        match v with
        | Value.scalar s => .ok (s ++ arg)
        | Value.seq _ => .error (.typeError "can only concatenate list to list")
      else .ok ""

/-- `Template._handle_match` (src/uri.py lines 74-85): parse the body;
`if op:` is truthy only for a non-empty operator name (it is falsy both
for `None`, when the body has no pipe, and for the empty name produced by
a body such as `a|b|c`), in which case dispatch on the name (`getattr`
failure becomes `TemplateSyntaxError`); otherwise assert a single declared
variable and return `values.get(key, default)` (which may be absent:
`re.sub` then substitutes nothing).  The singleton `items()[0]` is
destructured directly, the iteration order of a one-entry dict being that
entry. -/
def handle_match (values : Values) (body : String) : Except PyError (Option Value) :=
  match parse_expansion body with
  | .error e => .error e
  | .ok (op, arg, vars) =>
    if op.getD "" = "" then
      match vars with
      | [(key, dflt)] => .ok (lookupDefault values key dflt)
      | _ => .error .assertionError
    else
      let o := op.getD ""
      let a := arg.getD ""
      if o = "opt" then .ok (some (Value.scalar (operator_opt vars a values)))
      else if o = "neg" then .ok (some (Value.scalar (operator_neg vars a values)))
      else if o = "listjoin" then (operator_listjoin vars a values).map (fun s => some (Value.scalar s))
      else if o = "join" then .ok (some (Value.scalar (operator_join vars a values)))
      else if o = "prefix" then ( operator_prefix vars a values).map (fun s => some (Value.scalar s))
      else if o = "append" then (operator_append vars a values).map (fun s => some (Value.scalar s))
      else .error (.templateSyntaxError ("Unexpected operator: " ++ pyRepr o))

/-- How one match's callback result is stitched into the output: a `None`
result contributes nothing (CPython's `re.sub` skips `None` items), a
scalar contributes its text, and a list makes the final join raise
`TypeError`. -/
def plainResult (pre tail : List Char) : Option Value → Except PyError (List Char)
  | none => .ok (pre ++ tail)
  | some (Value.scalar s) => .ok (pre ++ s.toList ++ tail)
  | some (Value.seq _) => .error (.typeError "sequence item: expected string, list found")

/-- One pass of `_template_pattern.sub` over the segments of the template
split on the close brace.  Every segment but the last is followed by a
close brace.  In such a segment, the regex `{([^}]+)}` matches from the
segment's first open brace (body running to the segment's end) provided the
body is non-empty; a segment without such a brace, and the trailing
segment, are literal. -/
def substSeg (values : Values) : List (List Char) → Except PyError (List Char)
  | [] => .ok []
  | [last] => .ok last
  | seg :: next :: rest =>
    match seg.dropWhile (fun c => c != lbrace) with
    | [] => (substSeg values (next :: rest)).map
        (fun t => seg.takeWhile (fun c => c != lbrace) ++ rbrace :: t)
    | _ :: body =>
      if body.isEmpty then
        (substSeg values (next :: rest)).map (fun t => seg ++ rbrace :: t)
      else
        match handle_match values (String.mk body) with
        | .error e => .error e
        | .ok r =>
          match substSeg values (next :: rest) with
          | .error e => .error e
          | .ok t => plainResult (seg.takeWhile (fun c => c != lbrace)) t r

/-- `Template.expand` (src/uri.py lines 69-72): percent-encode the values
once, then substitute every `{...}` match of the template. -/
def expand (template : String) (values : Values) : Except PyError String :=
  (substSeg (percent_encode values) (pySplit rbrace template.toList)).map String.mk

/-- `expand_template` (src/uri.py lines 43-52): the module entry point;
the merge of the positional mapping with keyword arguments is modelled as
a single mapping. -/
def expand_template (template : String) (values : Values) : Except PyError String :=
  expand template values

/-- Spec-side definition, following the specification's words for the
`join` operator: for every declared variable in order compute the lookup,
keep exactly those whose looked-up value is present, format `name=value`
and join with `arg`.  Used to compare against `operator_join`. -/
def spec_join (vars : VarDict) (arg : String) (values : Values) : String :=
  joinWith arg
    ((vars.filter (fun kd => (lookupDefault values kd.1 kd.2).isSome)).map
      (fun kd => kd.1 ++ "=" ++ pyStr ((lookupDefault values kd.1 kd.2).getD (Value.scalar ""))))

/-- Does one variable qualify for `opt`: its entry in the values (defaults
ignored) is present and is not an empty sequence. -/
def optQualifies (values : Values) (k : String) : Bool :=
  match pyGet values k with
  | none => false
  | some (Value.scalar _) => true
  | some (Value.seq l) => !l.isEmpty

/-- Truthiness condition of `opt` over the encoded values only: some
declared variable has an entry that is not an empty sequence. -/
def specOptTruthy (values : Values) (vars : VarDict) : Bool :=
  vars.any (fun kd => optQualifies values kd.1)

/-- Does a character list contain a `{...}` block in the sense of the
`_template_pattern` regex `{([^}]+)}` (src/uri.py line 40): an open brace
followed by at least one non-close-brace character and then a close
brace? -/
def hasTemplateBlock : List Char → Bool
  | [] => false
  | c :: rest =>
    (c = lbrace && !(rest.takeWhile (fun x => x != rbrace)).isEmpty &&
      !(rest.dropWhile (fun x => x != rbrace)).isEmpty)
    || hasTemplateBlock rest

/-- A segment (followed by a close brace) in which the regex cannot match:
its first open brace, if any, is its last character. -/
def noMatchSeg (seg : List Char) : Bool :=
  (seg.dropWhile (fun c => c != lbrace)).length ≤ 1

/-- Every segment except the final one admits no match. -/
def allButLastNoMatch : List (List Char) → Bool
  | [] => true
  | [_] => true
  | seg :: next :: rest => noMatchSeg seg && allButLastNoMatch (next :: rest)

/-- Rejoin the segments produced by splitting on the close brace. -/
def joinSegs : List (List Char) → List Char
  | [] => []
  | [s] => s
  | s :: next :: rest => s ++ rbrace :: joinSegs (next :: rest)

/-- The tail segments of a split, as a function of what remains of the
input once its first segment is dropped (used to characterise `pySplit`). -/
def pySplitTail (sep : Char) : List Char → List (List Char)
  | [] => []
  | _ :: r => pySplit sep r

/-! Support lemmas. -/

theorem optQualifies_none (values : Values) (k : String)
    (h : pyGet values k = none) : optQualifies values k = false := by
  unfold optQualifies
  rw [h]

theorem optQualifies_scalar (values : Values) (k s : String)
    (h : pyGet values k = some (Value.scalar s)) : optQualifies values k = true := by
  unfold optQualifies
  rw [h]

theorem optQualifies_seq (values : Values) (k : String) (l : List String)
    (h : pyGet values k = some (Value.seq l)) : optQualifies values k = !l.isEmpty := by
  unfold optQualifies
  rw [h]

theorem getD_replicate_none (n i : Nat) :
    (List.replicate n (none : Option String)).getD i none = none := by
  induction n generalizing i with
  | zero => simp
  | succ m ih =>
    cases i with
    | zero => simp [List.replicate_succ]
    | succ j => simp [List.replicate_succ, ih j]

theorem probeSlot_replicate (n mask fuel i p : Nat) (hf : fuel ≠ 0) :
    probeSlot (List.replicate n none) mask fuel i p = i % (mask + 1) := by
  cases fuel with
  | zero => exact absurd rfl hf
  | succ f => simp [probeSlot, getD_replicate_none]

theorem filterMap_replicate_none (n : Nat) :
    (List.replicate n (none : Option String)).filterMap id = [] := by
  induction n with
  | zero => rfl
  | succ m ih => simp [List.replicate_succ, ih]

theorem filterMap_set_replicate (n i : Nat) (hi : i < n) (k : String) :
    ((List.replicate n (none : Option String)).set i (some k)).filterMap id = [k] := by
  induction n generalizing i with
  | zero => exact absurd hi (Nat.not_lt_zero i)
  | succ m ih =>
    cases i with
    | zero => simp [List.replicate_succ, filterMap_replicate_none]
    | succ j =>
      have hj : j < m := by omega
      simp [List.replicate_succ, ih j hj]

theorem cpythonKeyOrder_singleton (k : String) : cpythonKeyOrder [k] = [k] := by
  have hlt : pyStringHash k % 8 < 8 := Nat.mod_lt _ (by norm_num)
  have hmm8 : pyStringHash k % 8 % 8 = pyStringHash k % 8 := Nat.mod_mod_of_dvd _ dvd_rfl
  have hprobe : probeSlot (List.replicate 8 none) 7 96 (pyStringHash k % 8) (pyStringHash k)
      = pyStringHash k % 8 := by
    rw [probeSlot_replicate 8 7 96 _ _ (by norm_num)]
    exact hmm8
  have hbuild : buildTable [k] =
      (List.replicate 8 none).set (pyStringHash k % 8) (some k) := by
    show (dictInsertKey (List.replicate 8 none, 0) k).1 = _
    unfold dictInsertKey insertKeyRaw
    norm_num [hprobe, List.length_replicate, List.length_set]
  unfold cpythonKeyOrder
  rw [hbuild]
  exact filterMap_set_replicate 8 _ hlt k

theorem cpythonItems_singleton (k : String) (d : Option String) :
    cpythonItems [(k, d)] = [(k, d)] := by
  unfold cpythonItems
  simp [cpythonKeyOrder_singleton, pyGet]

theorem pyGet_percent_encode (values : Values) (k : String) :
    pyGet (percent_encode values) k = (pyGet values k).map encodeValue := by
  induction values with
  | nil => rfl
  | cons kv rest ih =>
    obtain ⟨k₀, v⟩ := kv
    by_cases h : k₀ = k
    · simp [percent_encode, pyGet, h]
    · simpa [percent_encode, pyGet, h] using ih

set_option maxRecDepth 8000 in
theorem pyHex2_lt_256 : ∀ n : Nat, n < 256 →
    pyHex2 n = [hexUpper (n / 16), hexUpper (n % 16)] := by decide


theorem pySplit_ne_nil (sep : Char) (s : List Char) : pySplit sep s ≠ [] := by
  cases s with
  | nil => simp [pySplit]
  | cons c rest =>
    simp only [pySplit]
    rcases pySplit sep rest with _ | ⟨h, t⟩
    · simp
    · by_cases hc : c = sep <;> simp [hc]

theorem pySplit_char (sep : Char) (s : List Char) :
    pySplit sep s =
      s.takeWhile (fun c => c != sep) :: pySplitTail sep (s.dropWhile (fun c => c != sep)) := by
  induction s with
  | nil => rfl
  | cons c rest ih =>
    by_cases hc : c = sep
    · subst hc
      simp [pySplit, ih, pySplitTail, List.takeWhile_cons, List.dropWhile_cons]
    · simp [pySplit, ih, pySplitTail, List.takeWhile_cons, List.dropWhile_cons, hc]

theorem joinSegs_pySplit (s : List Char) : joinSegs (pySplit rbrace s) = s := by
  induction s with
  | nil => rfl
  | cons c rest ih =>
    rcases hr : pySplit rbrace rest with _ | ⟨h, t⟩
    · exact absurd hr (pySplit_ne_nil rbrace rest)
    · rw [hr] at ih
      by_cases hc : c = rbrace
      · subst hc
        simp only [pySplit, hr, if_pos rfl, joinSegs]
        simpa using ih
      · cases t with
        | nil =>
          simp only [joinSegs] at ih
          simp [pySplit, hr, hc, joinSegs, ih]
        | cons t₀ t₁ =>
          simp only [joinSegs] at ih
          simp [pySplit, hr, hc, joinSegs, ih]

theorem takeWhile_append_all (p : Char → Bool) (l₁ l₂ : List Char)
    (h : ∀ c ∈ l₁, p c = true) :
    (l₁ ++ l₂).takeWhile p = l₁ ++ l₂.takeWhile p := by
  induction l₁ with
  | nil => simp
  | cons c t ih =>
    have hc := h c (by simp)
    simp [List.takeWhile_cons, hc, ih (fun x hx => h x (by simp [hx]))]

theorem dropWhile_append_all (p : Char → Bool) (l₁ l₂ : List Char)
    (h : ∀ c ∈ l₁, p c = true) :
    (l₁ ++ l₂).dropWhile p = l₂.dropWhile p := by
  induction l₁ with
  | nil => simp
  | cons c t ih =>
    have hc := h c (by simp)
    simp [List.dropWhile_cons, hc, ih (fun x hx => h x (by simp [hx]))]

theorem substSeg_noMatch (values : Values) (segs : List (List Char))
    (h : allButLastNoMatch segs = true) :
    substSeg values segs = Except.ok (joinSegs segs) := by
  induction segs with
  | nil => rfl
  | cons seg rest ih =>
    cases rest with
    | nil => rfl
    | cons next rest₂ =>
      have h' : noMatchSeg seg = true ∧ allButLastNoMatch (next :: rest₂) = true := by
        simpa [allButLastNoMatch] using h
      have hrec := ih h'.2
      rcases hd : seg.dropWhile (fun c => c != lbrace) with _ | ⟨x, body⟩
      · have htw : seg.takeWhile (fun c => c != lbrace) = seg := by
          have hsplit := List.takeWhile_append_dropWhile (p := fun c => c != lbrace) (l := seg)
          rw [hd] at hsplit
          simpa using hsplit
        simp [substSeg, hd, hrec, htw, joinSegs, Except.map]
      · have hlen : (x :: body).length ≤ 1 := by simpa [noMatchSeg, hd] using h'.1
        have hbody : body = [] := by
          cases body with
          | nil => rfl
          | cons b bs => simp at hlen
        subst hbody
        simp [substSeg, hd, hrec, joinSegs, Except.map]

theorem noBlock_allButLast (s : List Char) (h : hasTemplateBlock s = false) :
    allButLastNoMatch (pySplit rbrace s) = true := by
  induction s with
  | nil => rfl
  | cons c rest ih =>
    have hh : (c = lbrace && !(rest.takeWhile (fun x => x != rbrace)).isEmpty &&
        !(rest.dropWhile (fun x => x != rbrace)).isEmpty) = false ∧
        hasTemplateBlock rest = false := by
      simpa [hasTemplateBlock] using h
    have ih' := ih hh.2
    rcases hr : pySplit rbrace rest with _ | ⟨h₀, t₀⟩
    · exact absurd hr (pySplit_ne_nil rbrace rest)
    · rw [hr] at ih'
      by_cases hc : c = rbrace
      · subst hc
        simp only [pySplit, hr, if_pos rfl]
        have hempty : noMatchSeg ([] : List Char) = true := by decide
        simpa [allButLastNoMatch, hempty] using ih'
      · simp only [pySplit, hr, if_neg hc]
        cases t₀ with
        | nil => rfl
        | cons u v =>
          have hall : noMatchSeg h₀ = true ∧ allButLastNoMatch (u :: v) = true := by
            simpa [allButLastNoMatch] using ih'
          have hnm : noMatchSeg (c :: h₀) = true := by
            by_cases hcl : c = lbrace
            · subst hcl
              have hchar := (hr.symm.trans (pySplit_char rbrace rest))
              have he1 : h₀ = rest.takeWhile (fun x => x != rbrace) := by
                simpa using congrArg (fun l => l.headI) hchar
              have he2 : pySplitTail rbrace (rest.dropWhile (fun x => x != rbrace)) = u :: v := by
                simpa using (congrArg (fun l => l.tail) hchar).symm
              have hdw : rest.dropWhile (fun x => x != rbrace) ≠ [] := by
                intro hnil
                rw [hnil] at he2
                simp [pySplitTail] at he2
              have hdwe : (rest.dropWhile (fun x => x != rbrace)).isEmpty = false := by
                rcases hdrop : rest.dropWhile (fun x => x != rbrace) with _ | ⟨a, b⟩
                · exact absurd hdrop hdw
                · rfl
              have h1 := hh.1
              simp [hdwe] at h1
              have hh₀ : h₀ = [] := by
                rw [he1]
                cases rest with
                | nil => rfl
                | cons r rs =>
                  have hr0 := h1 (by simp)
                  simp at hr0
                  simp [List.takeWhile_cons, hr0]
              subst hh₀
              decide
            · have hstep : (c :: h₀).dropWhile (fun x => x != lbrace) =
                  h₀.dropWhile (fun x => x != lbrace) := by
                simp [List.dropWhile_cons, hcl]
              have := hall.1
              simpa [noMatchSeg, hstep] using this
          simpa [allButLastNoMatch, hnm] using hall.2

theorem pySplit_append_all (sep : Char) (pre s : List Char)
    (h : ∀ c ∈ pre, ¬(c = sep)) (h₀ : List Char) (t₀ : List (List Char))
    (hs : pySplit sep s = h₀ :: t₀) :
    pySplit sep (pre ++ s) = (pre ++ h₀) :: t₀ := by
  induction pre with
  | nil => simpa using hs
  | cons c p ih =>
    have hcs : ¬(c = sep) := h c (by simp)
    have hrec := ih (fun x hx => h x (by simp [hx]))
    simp [pySplit, List.cons_append, hrec, hcs]

theorem substSeg_append_literal (values : Values) (pre h₀ : List Char)
    (t₀ : List (List Char)) (h : ∀ c ∈ pre, ¬(c = lbrace)) :
    substSeg values ((pre ++ h₀) :: t₀) =
      (substSeg values (h₀ :: t₀)).map (fun t => pre ++ t) := by
  cases t₀ with
  | nil => simp [substSeg, Except.map]
  | cons next rest =>
    have hallp : ∀ c ∈ pre, (fun c => c != lbrace) c = true := by
      intro c hc
      simpa using h c hc
    have hdw : (pre ++ h₀).dropWhile (fun c => c != lbrace) =
        h₀.dropWhile (fun c => c != lbrace) :=
      dropWhile_append_all _ _ _ hallp
    have htw : (pre ++ h₀).takeWhile (fun c => c != lbrace) =
        pre ++ h₀.takeWhile (fun c => c != lbrace) :=
      takeWhile_append_all _ _ _ hallp
    rcases hd : h₀.dropWhile (fun c => c != lbrace) with _ | ⟨x, body⟩
    · cases hsub : substSeg values (next :: rest) with
      | error e => simp [substSeg, hdw, hd, htw, hsub, Except.map]
      | ok t => simp [substSeg, hdw, hd, htw, hsub, Except.map, List.append_assoc]
    · by_cases hb : body.isEmpty
      · cases hsub : substSeg values (next :: rest) with
        | error e => simp [substSeg, hdw, hd, hb, hsub, Except.map]
        | ok t => simp [substSeg, hdw, hd, hb, hsub, Except.map, List.append_assoc]
      · cases hm : handle_match values (String.mk body) with
        | error e => simp [substSeg, hdw, hd, hb, hm, Except.map]
        | ok r =>
          cases hsub : substSeg values (next :: rest) with
          | error e => simp [substSeg, hdw, hd, hb, hm, hsub, Except.map]
          | ok t =>
            cases r with
            | none =>
              simp [substSeg, hdw, hd, hb, hm, hsub, plainResult, htw, Except.map,
                List.append_assoc]
            | some v =>
              cases v with
              | scalar s =>
                simp [substSeg, hdw, hd, hb, hm, hsub, plainResult, htw, Except.map,
                  List.append_assoc]
              | seq l =>
                simp [substSeg, hdw, hd, hb, hm, hsub, plainResult, Except.map]

theorem string_mk_append (a : String) (l : List Char) :
    String.mk (a.toList ++ l) = a ++ String.mk l := rfl

/-! Claims. -/

/-- C1: for plain substitution, expanding a block whose single declared
variable is absent from the caller's values and has no declared default
yields the empty text: for every values mapping not containing `foo`,
`expand_template "{foo}" values` returns the empty string. -/
theorem c1_plain_absent_is_empty (values : Values) (h : pyGet values "foo" = none) :
    expand_template "{foo}" values = Except.ok "" := by
  have hL : lookupDefault (percent_encode values) "foo" none = none := by
    simp [lookupDefault, pyGet_percent_encode, h]
  have hsegs : pySplit rbrace (String.toList "{foo}") = [[lbrace, 'f', 'o', 'o'], []] := rfl
  have hstep : substSeg (percent_encode values) [[lbrace, 'f', 'o', 'o'], []] =
      plainResult [] [] (lookupDefault (percent_encode values) "foo" none) := rfl
  show (substSeg (percent_encode values) (pySplit rbrace (String.toList "{foo}"))).map
      String.mk = Except.ok ""
  rw [hsegs, hstep, hL]
  rfl

/-- Witness for C1 at the empty values mapping. -/
theorem c1_plain_absent_is_empty_witness :
    pyGet ([] : Values) "foo" = none ∧ expand_template "{foo}" [] = Except.ok "" :=
  ⟨rfl, c1_plain_absent_is_empty [] rfl⟩

/-- C2 counterexample: the body `-join|&|a|b` contains a pipe and splits
into four parts, and the expansion entry point raises `ValueError` (a tuple
unpacking failure), not `TemplateSyntaxError`. -/
theorem c2_counterexample :
    expand_template "{-join|&|a|b}" [] =
      Except.error (PyError.valueError "unpacking mismatch") := rfl

/-- C2 (amended): for every expansion body containing a pipe whose split on
the pipe does not yield exactly three parts, parsing fails with a
`ValueError` from tuple unpacking (so `TemplateSyntaxError` is not the only
error kind the entry point can raise). -/
theorem c2_amended_unpack_valueError (body : String)
    (h₁ : body.toList.contains '|' = true)
    (h₂ : (splitOnChar '|' body).length ≠ 3) :
    parse_expansion body = Except.error (PyError.valueError "unpacking mismatch") := by
  have hmem : '|' ∈ body.data := by simpa using h₁
  rcases hs : splitOnChar '|' body with _ | ⟨a, _ | ⟨b, _ | ⟨c, _ | ⟨d, t⟩⟩⟩⟩
  · simp [parse_expansion, hmem, hs]
  · simp [parse_expansion, hmem, hs]
  · simp [parse_expansion, hmem, hs]
  · exact absurd (by rw [hs]; rfl) h₂
  · simp [parse_expansion, hmem, hs]

/-- Witness for C2 (amended) at the body `-join|&|a|b`. -/
theorem c2_amended_unpack_valueError_witness :
    ("-join|&|a|b".toList.contains '|' = true) ∧
    ((splitOnChar '|' "-join|&|a|b").length ≠ 3) ∧
    parse_expansion "-join|&|a|b" = Except.error (PyError.valueError "unpacking mismatch") :=
  ⟨rfl, by decide, c2_amended_unpack_valueError "-join|&|a|b" rfl (by decide)⟩

/-- C3 counterexample: the encoder passes the slash through unchanged and
escapes the tilde as `%7E`, contradicting the claimed RFC 3986 unreserved
set on both counts. -/
theorem c3_counterexample :
    percent_encode [("k", Value.scalar "/~")] = [("k", Value.scalar "/%7E")] := rfl

/-- C3 (amended): the scalar encoder passes through exactly the ASCII
letters, digits, `_`, `.`, `-` and `/` (Python 2 `urllib.quote` with its
default `safe='/'`; the tilde is escaped), turns every other byte into a
percent escape with two uppercase hex digits (space becomes `%20`), and
encodes a sequence element-wise, preserving order and length, with the
empty sequence mapped to the empty sequence. -/
theorem c3_amended_encoder :
    (∀ c : Char,
        (c.isAlpha || c.isDigit || c = '_' || c = '.' || c = '-' || c = '/') = true →
        quoteChar c = [c]) ∧
    (∀ c : Char, c.toNat < 256 →
        (c.isAlpha || c.isDigit || c = '_' || c = '.' || c = '-' || c = '/') = false →
        quoteChar c = ['%', hexUpper (c.toNat / 16), hexUpper (c.toNat % 16)]) ∧
    pyQuote " " = "%20" ∧
    (∀ l : List String, encodeValue (Value.seq l) = Value.seq (l.map pyQuote) ∧
        (l.map pyQuote).length = l.length) ∧
    encodeValue (Value.seq []) = Value.seq [] := by
  refine ⟨?_, ?_, rfl, ?_, rfl⟩
  · intro c hc
    have hsafe : (isAlwaysSafe c || c = '/') = true := by
      simpa [isAlwaysSafe, Bool.or_assoc] using hc
    simp [quoteChar, hsafe]
  · intro c h256 hc
    have hsafe : (isAlwaysSafe c || c = '/') = false := by
      simpa [isAlwaysSafe, Bool.or_assoc] using hc
    simp [quoteChar, hsafe, pyHex2_lt_256 c.toNat h256]
  · intro l
    exact ⟨rfl, by simp⟩

/-- Witness for C3 (amended) at concrete characters. -/
theorem c3_amended_encoder_witness :
    quoteChar 'a' = ['a'] ∧ quoteChar '/' = ['/'] ∧
    quoteChar '~' = ['%', hexUpper (126 / 16), hexUpper (126 % 16)] ∧
    quoteChar ' ' = ['%', hexUpper (32 / 16), hexUpper (32 % 16)] :=
  ⟨c3_amended_encoder.1 'a' rfl, c3_amended_encoder.1 '/' rfl,
   c3_amended_encoder.2.1 '~' (by decide) rfl,
   c3_amended_encoder.2.1 ' ' (by decide) rfl⟩

/-- C4 counterexample: the claim's own instance
`expand("{-opt|&|foo=wilma}", {})`: the declared default is not consulted
by `opt`, so the result is empty rather than the claimed `&`. -/
theorem c4_counterexample :
    expand_template "{-opt|&|foo=wilma}" [] = Except.ok "" := rfl

/-- C4 (amended): a variable present in the values is looked up there (for
every operator); a variable absent from the values falls back to its
declared default only for `join`, `prefix` and `append`, while `opt` and
`neg` ignore declared defaults (the variable counts as absent) and
`listjoin` treats the absent variable as the empty sequence. -/
theorem c4_amended_default_lookup :
    (∀ (values : Values) (k : String) (v : Value) (dflt : Option String),
        pyGet values k = some v → lookupDefault values k dflt = some v) ∧
    (∀ (values : Values) (k d arg : String), pyGet values k = none →
        operator_join [(k, some d)] arg values = k ++ "=" ++ d) ∧
    (∀ (values : Values) (k d arg : String), pyGet values k = none → 0 < d.length →
        operator_prefix [(k, some d)] arg values = Except.ok (arg ++ d)) ∧
    (∀ (values : Values) (k d arg : String), pyGet values k = none → 0 < d.length →
        operator_append [(k, some d)] arg values = Except.ok (d ++ arg)) ∧
    (∀ (values : Values) (k d arg : String), pyGet values k = none →
        operator_opt [(k, some d)] arg values = "") ∧
    (∀ (values : Values) (k d arg : String), pyGet values k = none →
        operator_neg [(k, some d)] arg values = arg) ∧
    (∀ (values : Values) (k d arg : String), pyGet values k = none →
        operator_listjoin [(k, some d)] arg values = Except.ok "") := by
  refine ⟨?_, ?_, ?_, ?_, ?_, ?_, ?_⟩
  · intro values k v dflt h
    simp [lookupDefault, h]
  · intro values k d arg h
    simp [operator_join, cpythonItems_singleton, lookupDefault, h, joinWith, pyStr]
  · intro values k d arg h hd
    simp [ operator_prefix, cpythonItems_singleton, lookupDefault, h, pyLen, hd]
  · intro values k d arg h hd
    simp [operator_append, cpythonItems_singleton, lookupDefault, h, pyLen, hd]
  · intro values k d arg h
    simp [operator_opt, h]
  · intro values k d arg h
    have hopt : operator_opt [(k, some d)] arg values = "" := by
      simp [operator_opt, h]
    simp [operator_neg, hopt]
  · intro values k d arg h
    simp [operator_listjoin, cpythonItems_singleton, h, pyJoin, joinWith]

/-- Witness for C4 (amended) at concrete inputs. -/
theorem c4_amended_default_lookup_witness :
    lookupDefault [("a", Value.scalar "x")] "a" none = some (Value.scalar "x") ∧
    operator_join [("foo", some "wilma")] "&" [] = "foo" ++ "=" ++ "wilma" ∧
    ( operator_prefix [("foo", some "wilma")] "&" [] = Except.ok ("&" ++ "wilma")) ∧
    operator_append [("foo", some "wilma")] "&" [] = Except.ok ("wilma" ++ "&") ∧
    operator_opt [("foo", some "wilma")] "&" [] = "" ∧
    operator_neg [("foo", some "wilma")] "&" [] = "&" ∧
    operator_listjoin [("foo", some "wilma")] "&" [] = Except.ok "" :=
  ⟨c4_amended_default_lookup.1 _ "a" _ none rfl,
   c4_amended_default_lookup.2.1 [] "foo" "wilma" "&" rfl,
   c4_amended_default_lookup.2.2.1 [] "foo" "wilma" "&" rfl (by decide),
   c4_amended_default_lookup.2.2.2.1 [] "foo" "wilma" "&" rfl (by decide),
   c4_amended_default_lookup.2.2.2.2.1 [] "foo" "wilma" "&" rfl,
   c4_amended_default_lookup.2.2.2.2.2.1 [] "foo" "wilma" "&" rfl,
   c4_amended_default_lookup.2.2.2.2.2.2 [] "foo" "wilma" "&" rfl⟩

/-- C5 counterexample: a token with two equals signs is not split on the
first one; its three-way split fails tuple unpacking with `ValueError`. -/
theorem c5_counterexample :
    parse_expansion "a=b=c" = Except.error (PyError.valueError "unpacking mismatch") := rfl

/-- C5 (amended): a variable token containing `=` is split on every `=`;
when that yields exactly two parts they become the name and the default,
with an empty default raising `TemplateSyntaxError` naming the whole
token, and any other arity raising `ValueError` from tuple unpacking. -/
theorem c5_amended_token_split :
    (∀ tok : String, tok.toList.contains '=' = true →
        (splitOnChar '=' tok).length ≠ 2 →
        parseVars [tok] [] = Except.error (PyError.valueError "unpacking mismatch")) ∧
    (∀ tok n : String, tok.toList.contains '=' = true →
        splitOnChar '=' tok = [n, ""] →
        parseVars [tok] [] =
          Except.error (PyError.templateSyntaxError ("Invalid variable: " ++ pyRepr tok))) ∧
    (∀ tok n d : String, tok.toList.contains '=' = true →
        splitOnChar '=' tok = [n, d] → d ≠ "" → varnameMatches n = true →
        parseVars [tok] [] = Except.ok [(n, some d)]) ∧
    parse_expansion "fred=" =
      Except.error (PyError.templateSyntaxError ("Invalid variable: " ++ pyRepr "fred=")) := by
  refine ⟨?_, ?_, ?_, rfl⟩
  · intro tok h₁ h₂
    have hmem : '=' ∈ tok.data := by simpa using h₁
    rcases hs : splitOnChar '=' tok with _ | ⟨a, _ | ⟨b, _ | ⟨c, t⟩⟩⟩
    · simp [parseVars, hmem, hs]
    · simp [parseVars, hmem, hs]
    · exact absurd (by rw [hs]; rfl) h₂
    · simp [parseVars, hmem, hs]
  · intro tok n h₁ hs
    have hmem : '=' ∈ tok.data := by simpa using h₁
    simp [parseVars, hmem, hs]
  · intro tok n d h₁ hs hd hn
    have hmem : '=' ∈ tok.data := by simpa using h₁
    simp [parseVars, hmem, hs, hd, hn, dictInsert]

/-- Witness for C5 (amended) at concrete tokens. -/
theorem c5_amended_token_split_witness :
    parseVars ["a=b=c"] [] = Except.error (PyError.valueError "unpacking mismatch") ∧
    parseVars ["fred="] [] =
      Except.error (PyError.templateSyntaxError ("Invalid variable: " ++ pyRepr "fred=")) ∧
    parseVars ["foo=wilma"] [] = Except.ok [("foo", some "wilma")] :=
  ⟨c5_amended_token_split.1 "a=b=c" rfl (by decide),
   c5_amended_token_split.2.1 "fred=" "fred" rfl rfl,
   c5_amended_token_split.2.2.1 "foo=wilma" "foo" "wilma" rfl rfl (by decide) rfl⟩

set_option maxRecDepth 100000 in
/-- C6 counterexample: at the module's own doctest input (variables
declared `a,b,c`; values `b=2`, `c=3`) the program joins in the dict's
iteration order, giving `c=3&b=2` (the result recorded by the doctest at
src/uri.py line 62), while the claimed declaration order would give
`b=2&c=3` (the declaration-ordered spec reading `spec_join`). -/
theorem c6_counterexample :
    operator_join [("a", none), ("b", none), ("c", none)] "&"
        [("b", Value.scalar "2"), ("c", Value.scalar "3")] = "c=3&b=2" ∧
    spec_join [("a", none), ("b", none), ("c", none)] "&"
        [("b", Value.scalar "2"), ("c", Value.scalar "3")] = "b=2&c=3" :=
  ⟨rfl, rfl⟩

/-- C6 (amended): the `join` operator emits `name=value` pairs joined by
`arg` in the variable dict's iteration order (CPython 2 hash order of the
names, which can differ from declaration order), skipping a variable
exactly when its looked-up value is absent from both the values and its
declared default; a variable present with an empty-string value is not
skipped and yields `name=`. -/
theorem c6_amended_join :
    (∀ (vars : VarDict) (arg : String) (values : Values),
        operator_join vars arg values = spec_join (cpythonItems vars) arg values) ∧
    (∀ (k arg : String) (values : Values), pyGet values k = some (Value.scalar "") →
        operator_join [(k, none)] arg values = k ++ "=") ∧
    (∀ (k arg : String) (values : Values), pyGet values k = none →
        operator_join [(k, none)] arg values = "") := by
  refine ⟨?_, ?_, ?_⟩
  · intro vars arg values
    have hlist : ∀ l : VarDict, (l.filterMap (fun kd =>
        (lookupDefault values kd.1 kd.2).map (fun v => kd.1 ++ "=" ++ pyStr v))) =
        ((l.filter (fun kd => (lookupDefault values kd.1 kd.2).isSome)).map
          (fun kd => kd.1 ++ "=" ++
            pyStr ((lookupDefault values kd.1 kd.2).getD (Value.scalar "")))) := by
      intro l
      induction l with
      | nil => rfl
      | cons kd rest ih =>
        cases h : lookupDefault values kd.1 kd.2 with
        | none => simp [List.filterMap_cons, List.filter_cons, h, ih]
        | some v => simp [List.filterMap_cons, List.filter_cons, h, ih]
    simp [operator_join, spec_join, hlist (cpythonItems vars)]
  · intro k arg values h
    simp [operator_join, cpythonItems_singleton, lookupDefault, h, joinWith, pyStr]
  · intro k arg values h
    simp [operator_join, cpythonItems_singleton, lookupDefault, h, joinWith]

/-- Witness for C6 (amended) at concrete inputs. -/
theorem c6_amended_join_witness :
    operator_join [("a", none), ("b", none), ("c", none)] "&"
        [("b", Value.scalar "2"), ("c", Value.scalar "3")] =
      spec_join (cpythonItems [("a", none), ("b", none), ("c", none)]) "&"
        [("b", Value.scalar "2"), ("c", Value.scalar "3")] ∧
    operator_join [("foo", none)] "&" [("foo", Value.scalar "")] = "foo" ++ "=" ∧
    operator_join [("foo", none)] "&" [] = "" :=
  ⟨c6_amended_join.1 _ "&" _,
   c6_amended_join.2.1 "foo" "&" _ rfl,
   c6_amended_join.2.2 "foo" "&" [] rfl⟩

/-- C7 counterexample: for `{-opt|&|foo=wilma}` against empty values the
looked-up value (values entry, else declared default) is the present scalar
`wilma`, which is not an empty sequence, yet `opt` returns empty text
rather than the argument: `opt` never consults declared defaults. -/
theorem c7_counterexample :
    lookupDefault [] "foo" (some "wilma") = some (Value.scalar "wilma") ∧
    operator_opt [("foo", some "wilma")] "&" [] = "" :=
  ⟨rfl, rfl⟩

/-- C7 (amended): `opt` returns `arg` exactly when some declared variable
has an entry in the encoded values (declared defaults are ignored) that is
not an empty sequence, and returns empty text otherwise; in particular a
present empty-string scalar yields `arg` while a present empty sequence
does not. -/
theorem c7_amended_opt_truthiness :
    (∀ (vars : VarDict) (arg : String) (values : Values),
        operator_opt vars arg values = if specOptTruthy values vars then arg else "") ∧
    (∀ (k arg : String) (values : Values), pyGet values k = some (Value.scalar "") →
        operator_opt [(k, none)] arg values = arg) ∧
    (∀ (k arg : String) (values : Values), pyGet values k = some (Value.seq []) →
        operator_opt [(k, none)] arg values = "") := by
  refine ⟨?_, ?_, ?_⟩
  · intro vars arg values
    induction vars with
    | nil => rfl
    | cons kd rest ih =>
      obtain ⟨k, d⟩ := kd
      cases h : pyGet values k with
      | none =>
        have hq : optQualifies values k = false := optQualifies_none values k h
        have hcond : specOptTruthy values ((k, d) :: rest) = specOptTruthy values rest := by
          simp only [specOptTruthy, List.any_cons]
          rw [hq, Bool.false_or]
        have hstep : operator_opt ((k, d) :: rest) arg values =
            operator_opt rest arg values := by
          simp [operator_opt, h]
        rw [hstep, ih, hcond]
      | some v =>
        cases v with
        | scalar s =>
          simp [operator_opt, specOptTruthy, List.any_cons, h,
            optQualifies_scalar values k s h]
        | seq l =>
          cases l with
          | nil =>
            have hq : optQualifies values k = false := by
              rw [optQualifies_seq values k [] h]
              rfl
            have hcond : specOptTruthy values ((k, d) :: rest) =
                specOptTruthy values rest := by
              simp only [specOptTruthy, List.any_cons]
              rw [hq, Bool.false_or]
            have hstep : operator_opt ((k, d) :: rest) arg values =
                operator_opt rest arg values := by
              simp [operator_opt, h]
            rw [hstep, ih, hcond]
          | cons x xs =>
            simp [operator_opt, specOptTruthy, List.any_cons, h,
              optQualifies_seq values k (x :: xs) h]
  · intro k arg values h
    simp [operator_opt, h]
  · intro k arg values h
    simp [operator_opt, h]

/-- Witness for C7 (amended) at concrete inputs. -/
theorem c7_amended_opt_truthiness_witness :
    operator_opt [("foo", none)] "&" [("foo", Value.scalar "")] = "&" ∧
    operator_opt [("foo", none)] "&" [("foo", Value.seq [])] = "" ∧
    operator_opt [("foo", none)] "&" [("foo", Value.scalar "x")] =
      (if specOptTruthy [("foo", Value.scalar "x")] [("foo", none)] then "&" else "") :=
  ⟨c7_amended_opt_truthiness.2.1 "foo" "&" _ rfl,
   c7_amended_opt_truthiness.2.2 "foo" "&" _ rfl,
   c7_amended_opt_truthiness.1 [("foo", none)] "&" _⟩

/-- C8: for every expansion and values mapping, `neg` returns empty text
when `opt` on the same variables, argument and values returns non-empty
text, and returns the argument otherwise. -/
theorem c8_neg_negates_opt (vars : VarDict) (arg : String) (values : Values) :
    operator_neg vars arg values =
      if operator_opt vars arg values = "" then arg else "" := by
  by_cases h : operator_opt vars arg values = "" <;> simp [operator_neg, h]

/-- C9: a template with no `{...}` block expands to itself, and a literal
brace-free prefix passes through any expansion unchanged. -/
theorem c9_literal_preserved :
    (∀ (t : String) (values : Values), hasTemplateBlock t.toList = false →
        expand_template t values = Except.ok t) ∧
    (∀ (pre t : String) (values : Values),
        (∀ c ∈ pre.toList, ¬(c = lbrace) ∧ ¬(c = rbrace)) →
        expand_template (pre ++ t) values =
          (expand_template t values).map (fun s => pre ++ s)) := by
  constructor
  · intro t values h
    have h1 := noBlock_allButLast t.toList h
    have h2 := substSeg_noMatch (percent_encode values) (pySplit rbrace t.toList) h1
    show (substSeg (percent_encode values) (pySplit rbrace t.toList)).map String.mk =
      Except.ok t
    rw [h2, joinSegs_pySplit]
    rfl
  · intro pre t values h
    rcases hs : pySplit rbrace t.toList with _ | ⟨h₀, t₀⟩
    · exact absurd hs (pySplit_ne_nil rbrace t.toList)
    · have hpre_r : ∀ c ∈ pre.toList, ¬(c = rbrace) := fun c hc => (h c hc).2
      have hpre_l : ∀ c ∈ pre.toList, ¬(c = lbrace) := fun c hc => (h c hc).1
      have htl : (pre ++ t).toList = pre.toList ++ t.toList := rfl
      have hsp : pySplit rbrace ((pre ++ t).toList) = (pre.toList ++ h₀) :: t₀ := by
        rw [htl]
        exact pySplit_append_all rbrace pre.toList t.toList hpre_r h₀ t₀ hs
      have hsubst := substSeg_append_literal (percent_encode values) pre.toList h₀ t₀ hpre_l
      show (substSeg (percent_encode values) (pySplit rbrace ((pre ++ t).toList))).map
          String.mk =
        ((substSeg (percent_encode values) (pySplit rbrace t.toList)).map String.mk).map
          (fun s => pre ++ s)
      rw [hsp, hs, hsubst]
      cases hout : substSeg (percent_encode values) (h₀ :: t₀) with
      | error e => rfl
      | ok out => exact congrArg Except.ok (string_mk_append pre out)

/-- Witness for C9 at concrete inputs. -/
theorem c9_literal_preserved_witness :
    (hasTemplateBlock ("abc".toList) = false ∧
      expand_template "abc" [] = Except.ok "abc") ∧
    ((∀ c ∈ "ab".toList, ¬(c = lbrace) ∧ ¬(c = rbrace)) ∧
      expand_template ("ab" ++ "{foo}") [("foo", Value.scalar "x")] =
        (expand_template "{foo}" [("foo", Value.scalar "x")]).map (fun s => "ab" ++ s)) :=
  ⟨⟨rfl, c9_literal_preserved.1 "abc" [] rfl⟩,
   ⟨by decide, c9_literal_preserved.2 "ab" "{foo}" _ (by decide)⟩⟩

/-- C10: an empty brace pair and an unmatched open brace are not expansion
blocks and not errors: for every values mapping they expand to themselves
(the templates are written out as character lists). -/
theorem c10_no_block_edge_cases (values : Values) :
    expand_template (String.mk [lbrace, rbrace]) values =
      Except.ok (String.mk [lbrace, rbrace]) ∧
    expand_template (String.mk ['a', lbrace, 'b']) values =
      Except.ok (String.mk ['a', lbrace, 'b']) :=
  ⟨rfl, rfl⟩

end Uri
